import Mathlib

/-!
Verification of `minitorch/module.py`: a shallow embedding of the `Module`
and `Parameter` classes and proofs about their registration, traversal,
mode-propagation and error behaviour.

Python `dict`s (insertion-ordered, last-write-wins with the original
position kept on overwrite) are embedded as association lists.  Mutation
of an object becomes explicit state passing: each method that mutates a
module returns the updated module value.
-/

set_option autoImplicit false

namespace Minitorch

universe u

variable {α : Type u}

/-! ### Python `dict` as an insertion-ordered association list -/

/-- `k in d` for a Python dict. -/
def dictContains (d : List (String × α)) (k : String) : Bool :=
  match d with
  | [] => false
  | kv :: rest => (kv.1 == k) || dictContains rest k

/-- `d[k]` lookup for a Python dict (first — and, with unique keys, only — hit). -/
def dictLookup (d : List (String × α)) (k : String) : Option α :=
  match d with
  | [] => none
  | kv :: rest => if kv.1 = k then some kv.2 else dictLookup rest k

/-- `d[k] = v` for a Python dict: an existing key keeps its position and gets
the new value; a fresh key is appended at the end (insertion order). -/
def dictInsert (d : List (String × α)) (k : String) (v : α) : List (String × α) :=
  if dictContains d k then d.map (fun kv => if kv.1 = k then (k, v) else kv)
  else d ++ [(k, v)]

/-! ### The opaque value held by a `Parameter`

`Parameter.__init__` / `Parameter.update` probe the held value with
`hasattr(x, "requires_grad_")`; a value either exposes the
requires-gradient capability together with a settable `name` field
(`PValue.grad`), or it does not (`PValue.plain`). -/

/-- A Python value as seen by `Parameter`: either one exposing
`requires_grad_` and a settable `name`, or an arbitrary plain value. -/
inductive PValue (α : Type u) : Type u where
  | grad (payload : α) (requiresGrad : Bool) (vname : Option String) : PValue α
  | plain (payload : α) : PValue α

/-- Python truthiness of an optional string (`if self.name:`):
`None` and the empty string are falsy. -/
def truthy : Option String → Bool
  | none => false
  | some s => s != ""

/-- The body of `if hasattr(x, "requires_grad_"): x.requires_grad_(True);
if self.name: x.name = self.name` applied to a value `x` with the
parameter name `name`. -/
def applyGrad (x : PValue α) (name : Option String) : PValue α :=
  match x with
  | .grad a _ nm => .grad a true (if truthy name then name else nm)
  | .plain a => .plain a

/-! ### `Parameter` -/

/-- The `Parameter` class: a named wrapper around one value. -/
structure Parameter (α : Type u) : Type u where
  value : PValue α
  name : Option String

/-- `Parameter.__init__(self, x, name)`. -/
def Parameter.init (x : PValue α) (name : Option String) : Parameter α :=
  ⟨applyGrad x name, name⟩

/-- `Parameter.update(self, x)`. -/
def Parameter.update (p : Parameter α) (x : PValue α) : Parameter α :=
  ⟨applyGrad x p.name, p.name⟩

/-! ### `Module` -/

/-- The `Module` class.  `className` is the object's concrete type name
(`self.__class__.__name__`, used by `__repr__`); `plains` is the rest of
the instance `__dict__` (ordinary attributes stored by
`super().__setattr__`); `params` is `_parameters`; `mods` is `_modules`;
`training` is the mode flag. -/
inductive Module (α : Type u) : Type u where
  | mk (className : String) (plains : List (String × PValue α))
      (params : List (String × Parameter α))
      (mods : List (String × Module α)) (training : Bool) : Module α

def Module.className : Module α → String
  | .mk cn _ _ _ _ => cn

def Module.plains : Module α → List (String × PValue α)
  | .mk _ pl _ _ _ => pl

def Module.params : Module α → List (String × Parameter α)
  | .mk _ _ pa _ _ => pa

def Module.mods : Module α → List (String × Module α)
  | .mk _ _ _ mo _ => mo

def Module.training : Module α → Bool
  | .mk _ _ _ _ tr => tr

/-- `Module.__init__(self)`: both maps empty, `training = True`
(no plain attributes yet besides the bookkeeping ones modelled as fields). -/
def Module.init (cn : String) : Module α :=
  .mk cn [] [] [] true

/-- A value being assigned to a module field: `isinstance(val, Parameter)`,
`isinstance(val, Module)`, or anything else. -/
inductive AttrVal (α : Type u) : Type u where
  | param (p : Parameter α) : AttrVal α
  | module (m : Module α) : AttrVal α
  | plain (x : PValue α) : AttrVal α

/-- `Module.__setattr__(self, key, val)`: a `Parameter` goes into
`_parameters`, a `Module` into `_modules`, anything else into the
instance `__dict__` via `super().__setattr__`. -/
def Module.setattr : Module α → String → AttrVal α → Module α
  | .mk cn pl pa mo tr, k, .param p => .mk cn pl (dictInsert pa k p) mo tr
  | .mk cn pl pa mo tr, k, .module c => .mk cn pl pa (dictInsert mo k c) tr
  | .mk cn pl pa mo tr, k, .plain x => .mk cn (dictInsert pl k x) pa mo tr

/-- The outcome of reading attribute `k` on a module. -/
inductive GetattrResult (α : Type u) : Type u where
  | found (v : AttrVal α) : GetattrResult α
  | noneValue : GetattrResult α
  | attributeError : GetattrResult α

/-- Reading `m.k`.  Python first consults the instance `__dict__`
(ordinary attributes); only when that fails is `Module.__getattr__`
invoked, which checks `_parameters` then `_modules`.  The source's
`__getattr__` has no `raise` and no final `return`, so when the key is in
neither map the function body falls off the end and Python returns the
value `None` (`GetattrResult.noneValue`).  `GetattrResult.attributeError`
exists so that specifications about an `AttributeError` outcome can be
stated; this code never produces it. -/
def Module.getattr (m : Module α) (k : String) : GetattrResult α :=
  match dictLookup m.plains k with
  | some x => .found (.plain x)
  | none =>
    match dictLookup m.params k with
    | some p => .found (.param p)
    | none =>
      match dictLookup m.mods k with
      | some c => .found (.module c)
      | none => .noneValue

/-- `Module.add_parameter(self, k, v)`: wrap `v` in a `Parameter` named
`k`, store it in `_parameters[k]`, return the created parameter together
with the updated module. -/
def Module.add_parameter : Module α → String → PValue α → Parameter α × Module α
  | .mk cn pl pa mo tr, k, v =>
    let val := Parameter.init v (some k)
    (val, .mk cn pl (dictInsert pa k val) mo tr)

/-- The outcome of calling a module: a returned value or a raised error. -/
inductive CallOutcome (α : Type u) : Type u where
  | ok (v : α) : CallOutcome α
  | failure (msg : String) : CallOutcome α

def CallOutcome.isFailure {β : Type u} : CallOutcome β → Bool
  | .ok _ => false
  | .failure _ => true

/-- `Module.forward(self)`: `assert False, "Not Implemented"` — the body
raises unconditionally. -/
def Module.forward {β : Type u} (_ : Module α) : CallOutcome β :=
  .failure "Not Implemented"

/-- `Module.__call__(self, *args, **kwargs)` dispatches to
`self.forward(*args, **kwargs)`.  The base `forward` accepts no arguments
beyond `self`, so a non-empty argument list raises a `TypeError` before
the assertion; either way the call raises. -/
def Module.call {β : Type u} (m : Module α) (args : List (PValue α)) : CallOutcome β :=
  match args with
  | [] => m.forward
  | _ :: _ => .failure "TypeError: forward() takes 1 positional argument"

/-! ### Tree measures (for termination of the queue traversals) -/

mutual
/-- Number of modules in the tree (`self` and all descendants). -/
def Module.nodeCount : Module α → Nat
  | .mk _ _ _ mo _ => 1 + nodeCountList mo
def nodeCountList : List (String × Module α) → Nat
  | [] => 0
  | kv :: rest => Module.nodeCount kv.2 + nodeCountList rest
end

/-- Total node count of the modules sitting in a traversal queue. -/
def queueMeasure : List (String × Module α) → Nat
  | [] => 0
  | (_, m) :: rest => m.nodeCount + queueMeasure rest

/-! ### `train` / `eval`

The source walks the tree with a BFS queue and assigns the flag on every
visited module in place.  On the immutable tree the net effect of that
loop is to set `training` on every node of the subtree, which is what
`setTrainingAll` computes (the order in which the independent per-node
writes happen does not affect the final tree). -/

mutual
def Module.setTrainingAll (b : Bool) : Module α → Module α
  | .mk cn pl pa mo _ => .mk cn pl pa (setTrainingList b mo) b
def setTrainingList (b : Bool) : List (String × Module α) → List (String × Module α)
  | [] => []
  | (k, c) :: rest => (k, Module.setTrainingAll b c) :: setTrainingList b rest
end

/-- `Module.train(self)`: set the mode of this module and all descendant
modules to train. -/
def Module.train (m : Module α) : Module α :=
  m.setTrainingAll true

/-- `Module.eval(self)`: set the mode of this module and all descendant
modules to eval. -/
def Module.eval (m : Module α) : Module α :=
  m.setTrainingAll false

mutual
/-- Does every module in the tree have `training = b`? -/
def allTraining (b : Bool) : Module α → Bool
  | .mk _ _ _ mo tr => (tr == b) && allTrainingList b mo
def allTrainingList (b : Bool) : List (String × Module α) → Bool
  | [] => true
  | kv :: rest => allTraining b kv.2 && allTrainingList b rest
end

/-! ### `named_parameters` -/

/-- The name-qualification step of `named_parameters`: the local name as
is at the root (`current_module_name == ""`), else
`current_module_name + "." + local`. -/
def qualify (pre nm : String) : String :=
  if pre = "" then nm else pre ++ "." ++ nm

/-- The inner loop over `params.keys()`: emit each direct parameter under
its qualified name, in insertion order. -/
def emitParams (pre : String) : List (String × Parameter α) → List (String × Parameter α)
  | [] => []
  | (nm, p) :: rest => (qualify pre nm, p) :: emitParams pre rest

/-- The inner loop over `direct_modules.keys()`: the queue entries
appended for the direct children, in insertion order. -/
def childEntries (pre : String) (mo : List (String × Module α)) : List (String × Module α) :=
  mo.map (fun kv => (qualify pre kv.1, kv.2))

theorem nodeCount_eq (cn : String) (pl : List (String × PValue α))
    (pa : List (String × Parameter α)) (mo : List (String × Module α)) (tr : Bool) :
    (Module.mk cn pl pa mo tr).nodeCount = 1 + nodeCountList mo := by
  simp [Module.nodeCount]

theorem nodeCount_pos (m : Module α) : 0 < m.nodeCount := by
  cases m with
  | mk cn pl pa mo tr => rw [nodeCount_eq]; omega

theorem queueMeasure_append (a b : List (String × Module α)) :
    queueMeasure (a ++ b) = queueMeasure a + queueMeasure b := by
  induction a with
  | nil => simp [queueMeasure]
  | cons kv rest ih =>
    obtain ⟨k, m⟩ := kv
    simp [queueMeasure, ih]; omega

theorem queueMeasure_childEntries (pre : String) (mo : List (String × Module α)) :
    queueMeasure (childEntries pre mo) = nodeCountList mo := by
  induction mo with
  | nil => simp [childEntries, queueMeasure, nodeCountList]
  | cons kv rest ih =>
    obtain ⟨k, m⟩ := kv
    simp [childEntries, queueMeasure, nodeCountList] at *
    omega

/-- The queue loop of `Module.named_parameters`: pop `(prefix, module)`,
emit its direct parameters under qualified names, append its direct
children to the queue under qualified names. -/
def namedParametersAux : List (String × Module α) → List (String × Parameter α)
  | [] => []
  | (pre, m) :: rest =>
    emitParams pre m.params ++ namedParametersAux (rest ++ childEntries pre m.mods)
termination_by q => queueMeasure q
decreasing_by
  simp only [queueMeasure, queueMeasure_append, queueMeasure_childEntries]
  cases m with
  | mk cn pl pa mo tr => simp [Module.mods, nodeCount_eq]; omega

/-- `Module.named_parameters(self)`: the queue starts as `[("", self)]`. -/
def Module.named_parameters (m : Module α) : List (String × Parameter α) :=
  namedParametersAux [("", m)]

/-- `Module.parameters(self)`: the second component of each pair of
`named_parameters`, in the same order. -/
def Module.parameters (m : Module α) : List (Parameter α) :=
  (m.named_parameters).map Prod.snd

/-! ### Level-by-level breadth-first enumeration (specification side)

The spec describes `named_parameters` as a breadth-first traversal by
level: every module of the current level emits its direct parameters (in
insertion order, nodes in level order) before any module of the next
level — the concatenation of all children, per node in insertion order —
is visited.  `bfsByLevels` is that description written directly; claim C5
relates it to the queue implementation above. -/

/-- Emit the direct parameters of every queued module, in queue order. -/
def emitAll : List (String × Module α) → List (String × Parameter α)
  | [] => []
  | (pre, m) :: rest => emitParams pre m.params ++ emitAll rest

/-- The next BFS level: all direct children of the queued modules, per
module in insertion order. -/
def childrenAll : List (String × Module α) → List (String × Module α)
  | [] => []
  | (pre, m) :: rest => childEntries pre m.mods ++ childrenAll rest

theorem queueMeasure_childrenAll (q : List (String × Module α)) :
    queueMeasure (childrenAll q) + q.length = queueMeasure q := by
  induction q with
  | nil => simp [childrenAll, queueMeasure]
  | cons kv rest ih =>
    obtain ⟨pre, m⟩ := kv
    cases m with
    | mk cn pl pa mo tr =>
      simp [childrenAll, queueMeasure, queueMeasure_append,
        queueMeasure_childEntries, Module.mods, nodeCount_eq] at *
      omega

/-- Level-by-level BFS, following the spec's wording. -/
def bfsByLevels : List (String × Module α) → List (String × Parameter α)
  | [] => []
  | kv :: rest =>
    emitAll (kv :: rest) ++ bfsByLevels (childrenAll (kv :: rest))
termination_by q => queueMeasure q
decreasing_by
  have h := queueMeasure_childrenAll (kv :: rest)
  simp [List.length] at h
  omega

/-! ### `__repr__` -/

/-- The helper `_addindent(s_, numSpaces)` of `Module.__repr__`: indent
every line but the first by `numSpaces` spaces. -/
def addIndent (s0 : String) (numSpaces : Nat) : String :=
  match s0.splitOn "\n" with
  | [] => s0
  | [_] => s0
  | first :: rest =>
    first ++ "\n" ++
      String.intercalate "\n" (rest.map (fun line => String.mk (List.replicate numSpaces ' ') ++ line))

mutual
/-- `Module.__repr__(self)`.  Children render recursively, indented by two
spaces on every line but the first and prefixed with `(name): `; a module
with no children renders as `TypeName()`. -/
def Module.reprStr : Module α → String
  | .mk cn _ _ mo _ =>
    let childLines := reprChildren mo
    cn ++ "(" ++
      (if childLines.isEmpty then ""
       else "\n  " ++ String.intercalate "\n  " childLines ++ "\n") ++ ")"
def reprChildren : List (String × Module α) → List String
  | [] => []
  | (k, c) :: rest =>
    ("(" ++ k ++ "): " ++ addIndent (Module.reprStr c) 2) :: reprChildren rest
end

/-! ### Dictionary lemmas -/

theorem dictContains_append (a b : List (String × α)) (k : String) :
    dictContains (a ++ b) k = (dictContains a k || dictContains b k) := by
  induction a with
  | nil => simp [dictContains]
  | cons kv rest ih => simp [dictContains, ih, Bool.or_assoc]

theorem dictContains_map_upd (d : List (String × α)) (k : String) (v : α) :
    dictContains (d.map (fun kv => if kv.1 = k then (k, v) else kv)) k = dictContains d k := by
  induction d with
  | nil => simp [dictContains]
  | cons kv rest ih =>
    by_cases h : kv.1 = k
    · simp [dictContains, h, ih]
    · simp [dictContains, h, ih]

theorem map_upd_of_not_contains (d : List (String × α)) (k : String) (v : α)
    (h : dictContains d k = false) :
    d.map (fun kv => if kv.1 = k then (k, v) else kv) = d := by
  induction d with
  | nil => rfl
  | cons kv rest ih =>
    simp [dictContains, Bool.or_eq_false_iff] at h
    obtain ⟨h1, h2⟩ := h
    simp [List.map, h1, ih h2]

theorem dictInsert_dictInsert (d : List (String × α)) (k : String) (v1 v2 : α) :
    dictInsert (dictInsert d k v1) k v2 = dictInsert d k v2 := by
  by_cases h : dictContains d k = true
  · simp only [dictInsert, h, if_true, dictContains_map_upd, List.map_map]
    apply List.map_congr_left
    intro kv _
    by_cases hk : kv.1 = k <;> simp [hk, Function.comp]
  · simp only [Bool.not_eq_true] at h
    simp only [dictInsert, h, Bool.false_eq_true, if_false,
      dictContains_append, dictContains, beq_self_eq_true, Bool.true_or,
      Bool.or_true, if_true, List.map_append]
    rw [map_upd_of_not_contains d k v2 h]
    simp

theorem dictLookup_of_not_contains (d : List (String × α)) (k : String)
    (h : dictContains d k = false) : dictLookup d k = none := by
  induction d with
  | nil => rfl
  | cons kv rest ih =>
    simp [dictContains, Bool.or_eq_false_iff] at h
    obtain ⟨h1, h2⟩ := h
    simp [dictLookup, h1, ih h2]

theorem dictLookup_append (a b : List (String × α)) (k : String)
    (h : dictLookup a k = none) : dictLookup (a ++ b) k = dictLookup b k := by
  induction a with
  | nil => simp
  | cons kv rest ih =>
    by_cases hk : kv.1 = k
    · simp [dictLookup, hk] at h
    · simp [dictLookup, hk] at h ⊢
      exact ih h

theorem dictLookup_dictInsert_self (d : List (String × α)) (k : String) (v : α) :
    dictLookup (dictInsert d k v) k = some v := by
  by_cases h : dictContains d k = true
  · simp only [dictInsert, h, if_true]
    induction d with
    | nil => simp [dictContains] at h
    | cons kv rest ih =>
      by_cases hk : kv.1 = k
      · simp [dictLookup, hk]
      · simp [dictContains, hk] at h
        simp [dictLookup, hk]
        exact ih h
  · simp only [Bool.not_eq_true] at h
    simp only [dictInsert, h, Bool.false_eq_true, if_false]
    rw [dictLookup_append _ _ _ (dictLookup_of_not_contains d k h)]
    simp [dictLookup]

theorem dictKeys_dictInsert (d : List (String × α)) (k : String) (v : α) :
    (dictInsert d k v).map Prod.fst =
      (if dictContains d k then d.map Prod.fst else d.map Prod.fst ++ [k]) := by
  by_cases h : dictContains d k = true
  · simp only [dictInsert, h, if_true, List.map_map]
    apply List.map_congr_left
    intro kv _
    by_cases hk : kv.1 = k <;> simp [hk, Function.comp]
  · simp only [Bool.not_eq_true] at h
    simp [dictInsert, h]

/-! ### The queue traversal enumerates level by level -/

theorem namedParametersAux_append (q1 q2 : List (String × Module α)) :
    namedParametersAux (q1 ++ q2) =
      emitAll q1 ++ namedParametersAux (q2 ++ childrenAll q1) := by
  induction q1 generalizing q2 with
  | nil => simp [emitAll, childrenAll]
  | cons kv rest ih =>
    obtain ⟨pre, m⟩ := kv
    rw [List.cons_append, namedParametersAux, List.append_assoc,
      ih (q2 ++ childEntries pre m.mods)]
    simp [emitAll, childrenAll, List.append_assoc]

theorem namedParametersAux_round (q : List (String × Module α)) :
    namedParametersAux q = emitAll q ++ namedParametersAux (childrenAll q) := by
  have h := namedParametersAux_append q []
  simpa using h

theorem namedParametersAux_eq_bfsByLevels (q : List (String × Module α)) :
    namedParametersAux q = bfsByLevels q := by
  suffices h : ∀ n q0, queueMeasure (α := α) q0 = n → namedParametersAux q0 = bfsByLevels q0 from
    h _ q rfl
  intro n
  induction n using Nat.strong_induction_on with
  | _ n ih =>
    intro q0 hn
    cases q0 with
    | nil => simp [namedParametersAux, bfsByLevels]
    | cons kv rest =>
      rw [namedParametersAux_round, bfsByLevels]
      congr 1
      have hlt : queueMeasure (childrenAll (kv :: rest)) < n := by
        have h := queueMeasure_childrenAll (kv :: rest)
        simp [List.length] at h
        omega
      exact ih _ hlt _ rfl

/-! ### `train` / `eval` reach every node -/

mutual
theorem allTraining_setTrainingAll (b : Bool) (m : Module α) :
    allTraining b (m.setTrainingAll b) = true := by
  cases m with
  | mk cn pl pa mo tr =>
    rw [Module.setTrainingAll, allTraining]
    simp [allTrainingList_setTrainingList b mo]
theorem allTrainingList_setTrainingList (b : Bool) (l : List (String × Module α)) :
    allTrainingList b (setTrainingList b l) = true := by
  cases l with
  | nil => rw [setTrainingList, allTrainingList]
  | cons kv rest =>
    obtain ⟨k, c⟩ := kv
    rw [setTrainingList, allTrainingList]
    simp [allTraining_setTrainingAll b c, allTrainingList_setTrainingList b rest]
end

/-! ## The claims -/

/-- Claim C1, counterexample: on a freshly constructed module, the name
`"x"` is no ordinary attribute, no registered parameter and no registered
child, yet reading it yields the value `None` silently — not an
`AttributeError` — because `Module.__getattr__` falls off the end of its
body.  This refutes the claim that such a read is an explicit "no
attribute" failure. -/
theorem claim_C1_counterexample :
    dictContains (Module.init (α := Unit) "M").plains "x" = false ∧
    dictContains (Module.init (α := Unit) "M").params "x" = false ∧
    dictContains (Module.init (α := Unit) "M").mods "x" = false ∧
    Module.getattr (Module.init (α := Unit) "M") "x" = GetattrResult.noneValue ∧
    Module.getattr (Module.init (α := Unit) "M") "x" ≠ GetattrResult.attributeError :=
  ⟨rfl, rfl, rfl, rfl, fun h => GetattrResult.noConfusion h⟩

/-- Claim C1 (amended): for every module `m` and name `k` that is neither
an ordinary attribute, nor a key of the direct-parameter map, nor a key
of the direct-child map, reading field `k` yields the value `None`
silently (Python falls off the end of `__getattr__`), not an
`AttributeError`. -/
theorem claim_C1_amended {α : Type u} (m : Module α) (k : String)
    (h1 : dictLookup m.plains k = none)
    (h2 : dictLookup m.params k = none)
    (h3 : dictLookup m.mods k = none) :
    m.getattr k = GetattrResult.noneValue := by
  simp [Module.getattr, h1, h2, h3]

/-- Claim C1, witness for the amended theorem at a concrete input. -/
theorem claim_C1_witness :
    Module.getattr (Module.init (α := Unit) "Net") "weight" = GetattrResult.noneValue :=
  claim_C1_amended (Module.init "Net") "weight" rfl rfl rfl

/-- Claim C2, counterexample: attach a child module under `"x"`, then a
parameter under the same `"x"`.  The claim says the direct-child map no
longer contains `"x"`, but `__setattr__` only writes to `_parameters` and
never removes the stale `_modules` entry. -/
theorem claim_C2_counterexample :
    dictLookup ((Module.setattr
        (Module.setattr (Module.init (α := Unit) "M") "x" (AttrVal.module (Module.init "C")))
        "x" (AttrVal.param ⟨PValue.plain (), none⟩)).params) "x"
      = some ⟨PValue.plain (), none⟩ ∧
    dictContains ((Module.setattr
        (Module.setattr (Module.init (α := Unit) "M") "x" (AttrVal.module (Module.init "C")))
        "x" (AttrVal.param ⟨PValue.plain (), none⟩)).mods) "x" = true :=
  ⟨rfl, rfl⟩

/-- Claim C2 (amended): assigning a value under name `n` updates exactly
the map matching the value's classification and leaves the other storage
exactly as it was before the assignment: a `Parameter` lands in the
direct-parameter map (`n ↦ v`) with the direct-child map and the plain
attributes untouched (so a stale child entry for `n`, if any, survives);
a `Module` symmetrically; any other value lands in the plain attributes
with both maps untouched. -/
theorem claim_C2_amended {α : Type u} (m : Module α) (n : String) (p : Parameter α)
    (c : Module α) (x : PValue α) :
    ((m.setattr n (.param p)).params = dictInsert m.params n p ∧
      dictLookup (m.setattr n (.param p)).params n = some p ∧
      (m.setattr n (.param p)).mods = m.mods ∧
      (m.setattr n (.param p)).plains = m.plains) ∧
    ((m.setattr n (.module c)).mods = dictInsert m.mods n c ∧
      dictLookup (m.setattr n (.module c)).mods n = some c ∧
      (m.setattr n (.module c)).params = m.params ∧
      (m.setattr n (.module c)).plains = m.plains) ∧
    ((m.setattr n (.plain x)).plains = dictInsert m.plains n x ∧
      (m.setattr n (.plain x)).params = m.params ∧
      (m.setattr n (.plain x)).mods = m.mods) := by
  cases m with
  | mk cn pl pa mo tr =>
    refine ⟨⟨rfl, ?_, rfl, rfl⟩, ⟨rfl, ?_, rfl, rfl⟩, rfl, rfl, rfl⟩
    · exact dictLookup_dictInsert_self pa n p
    · exact dictLookup_dictInsert_self mo n c

/-- Claim C3: on a root holding a child `"c"` that holds a parameter
`"p"`, `named_parameters` yields `("c.p", P)`; a parameter `"p"` directly
on the root is yielded as exactly `"p"`, with no leading separator. -/
theorem claim_C3 {α : Type u} (P Q : Parameter α) (cn1 cn2 : String) (tr1 tr2 : Bool) :
    (Module.mk cn1 [] [] [("c", Module.mk cn2 [] [("p", P)] [] tr2)] tr1).named_parameters
      = [("c.p", P)] ∧
    (Module.mk cn1 [] [("p", Q)] [] tr1).named_parameters = [("p", Q)] := by
  constructor <;>
    simp [Module.named_parameters, namedParametersAux, emitParams, childEntries, qualify,
      Module.params, Module.mods]

/-- Claim C4: a freshly constructed module has `training = true`; after
`eval()` every module of the subtree has `training = false`; after a
subsequent `train()` every module has `training = true`, for trees of any
depth and branching factor. -/
theorem claim_C4 {α : Type u} (m : Module α) (cn : String) :
    (Module.init (α := α) cn).training = true ∧
    allTraining false m.eval = true ∧
    allTraining true m.eval.train = true :=
  ⟨rfl, allTraining_setTrainingAll false m, allTraining_setTrainingAll true m.eval⟩

/-- Claim C5: the queue implementation of `named_parameters` enumerates
parameters breadth-first level by level — each visited module's direct
parameters are emitted, in insertion order, before the next level (all
direct children, per module in insertion order) is visited — and
`parameters` is exactly the second components of `named_parameters` in
the same order. -/
theorem claim_C5 {α : Type u} (m : Module α) :
    m.named_parameters = bfsByLevels [("", m)] ∧
    m.parameters = (m.named_parameters).map Prod.snd :=
  ⟨namedParametersAux_eq_bfsByLevels [("", m)], rfl⟩

/-- Claim C6: constructing `Parameter(v, "w")` on a value exposing the
requires-gradient capability enables the flag and sets the value's name
to `"w"`; `update` replaces the held value, enables the flag on it and
sets its name to `"w"`; the parameter's own name never changes after
construction; a value lacking the capability is stored unchanged. -/
theorem claim_C6 {α : Type u} (a a2 a3 : α) (b b2 : Bool) (nm nm2 nm3 : Option String) :
    (Parameter.init (PValue.grad a b nm) (some "w")).value = PValue.grad a true (some "w") ∧
    (Parameter.init (PValue.grad a b nm) (some "w")).name = some "w" ∧
    ((Parameter.init (PValue.grad a b nm) (some "w")).update (PValue.grad a2 b2 nm2)).value
      = PValue.grad a2 true (some "w") ∧
    ((Parameter.init (PValue.grad a b nm) (some "w")).update (PValue.grad a2 b2 nm2)).name
      = some "w" ∧
    (∀ (p : Parameter α) (x : PValue α), (p.update x).name = p.name) ∧
    (Parameter.init (PValue.plain a3) nm3).value = PValue.plain a3 ∧
    (∀ p : Parameter α, (p.update (PValue.plain a3)).value = PValue.plain a3) :=
  ⟨rfl, rfl, rfl, rfl, fun _ _ => rfl, rfl, fun _ => rfl⟩

/-- Claim C7: attaching twice under one fixed name replaces the prior
entry without error — the state after two attachments equals the state
after only the second, the map holds the last-attached value under that
name, and the key list does not grow — for parameter assignment, child
assignment and `add_parameter` alike. -/
theorem claim_C7 {α : Type u} (m : Module α) (n : String) (p1 p2 : Parameter α)
    (c1 c2 : Module α) (v1 v2 : PValue α) :
    (m.setattr n (.param p1)).setattr n (.param p2) = m.setattr n (.param p2) ∧
    (m.setattr n (.module c1)).setattr n (.module c2) = m.setattr n (.module c2) ∧
    ((m.add_parameter n v1).2).add_parameter n v2 = m.add_parameter n v2 ∧
    dictLookup ((m.setattr n (.param p2)).params) n = some p2 ∧
    ((m.setattr n (.param p1)).setattr n (.param p2)).params.map Prod.fst
      = (m.setattr n (.param p1)).params.map Prod.fst := by
  cases m with
  | mk cn pl pa mo tr =>
    refine ⟨?_, ?_, ?_, ?_, ?_⟩
    · simp [Module.setattr, dictInsert_dictInsert]
    · simp [Module.setattr, dictInsert_dictInsert]
    · simp [Module.add_parameter, dictInsert_dictInsert]
    · simpa [Module.setattr, Module.params] using dictLookup_dictInsert_self pa n p2
    · rw [show ((Module.mk cn pl pa mo tr).setattr n (.param p1)).setattr n (.param p2)
          = Module.mk cn pl (dictInsert (dictInsert pa n p1) n p2) mo tr from rfl]
      rw [show ((Module.mk cn pl pa mo tr).setattr n (.param p1))
          = Module.mk cn pl (dictInsert pa n p1) mo tr from rfl]
      rw [Module.params, Module.params, dictInsert_dictInsert,
        dictKeys_dictInsert, dictKeys_dictInsert]

/-- Claim C8: calling a module whose `forward` was not overridden raises
unconditionally for every argument list — the base `forward` is
`assert False, "Not Implemented"` — and never returns a value. -/
theorem claim_C8 {α β : Type u} (m : Module α) (args : List (PValue α)) :
    (Module.call (β := β) m args).isFailure = true := by
  cases args <;> rfl

/-- Claim C9: a module with no registered parameters and no registered
children yields the empty sequence from `named_parameters` and
`parameters`, and its `__repr__` is exactly its concrete type name
followed by empty parentheses. -/
theorem claim_C9 {α : Type u} (cn : String) (pl : List (String × PValue α)) (tr : Bool) :
    (Module.mk cn pl [] [] tr : Module α).named_parameters = [] ∧
    (Module.mk cn pl [] [] tr : Module α).parameters = [] ∧
    (Module.mk cn pl [] [] tr : Module α).reprStr = cn ++ "()" := by
  refine ⟨?_, ?_, ?_⟩
  · simp [Module.named_parameters, namedParametersAux, emitParams, childEntries,
      Module.params, Module.mods]
  · simp [Module.parameters, Module.named_parameters, namedParametersAux, emitParams,
      childEntries, Module.params, Module.mods]
  · rw [Module.reprStr]
    simp [reprChildren]
    rw [String.append_assoc]
    rfl

/-- Claim C10 (implicit): ordinary attributes shadow registered entries
on field reads — after a plain value is stored under `n` and a
`Parameter` (or `Module`) is later attached under the same `n`, reading
`n` still yields the plain value, while the registered entry is reachable
only through the maps; attachment never removes the stored ordinary
attribute. -/
theorem claim_C10 {α : Type u} (m : Module α) (n : String) (x : PValue α)
    (p : Parameter α) (c : Module α) :
    ((m.setattr n (.plain x)).setattr n (.param p)).getattr n
      = GetattrResult.found (.plain x) ∧
    dictLookup ((m.setattr n (.plain x)).setattr n (.param p)).params n = some p ∧
    ((m.setattr n (.plain x)).setattr n (.module c)).getattr n
      = GetattrResult.found (.plain x) ∧
    dictLookup ((m.setattr n (.plain x)).setattr n (.module c)).mods n = some c ∧
    dictLookup ((m.setattr n (.plain x)).setattr n (.param p)).plains n = some x := by
  cases m with
  | mk cn pl pa mo tr =>
    have hx : dictLookup (dictInsert pl n x) n = some x := dictLookup_dictInsert_self pl n x
    refine ⟨?_, ?_, ?_, ?_, ?_⟩ <;>
      simp [Module.setattr, Module.getattr, Module.plains, Module.params, Module.mods,
        hx, dictLookup_dictInsert_self]

end Minitorch
